import Mathlib

/-!
Verification of the evmone interpreter sources against their design
specification.

The development shallowly embeds the two interpreters of the repository:

* the primordial prototype (src/lib/evmone/execution.cpp): its
  check_memory routine, the MSTORE opcode routine, the per-block
  pre-flight check of its dispatch loop, and its result assembly;
* the baseline interpreter (src/lib/evmone/baseline.cpp): the code
  analysis (jump-destination bitmap and padded code), the per-opcode
  pre-flight check check_requirements, the dispatch loop, and its
  result assembly.

Machine integers are embedded as Nat (unsigned) and Int (signed, for the
gas meter and costs); byte strings as List Nat; buffers that the C++
code leaves uninitialized as List (Option Nat) with none for an
uninitialized byte.
-/

namespace Evmone

/-- Execution status codes (the EVMC status codes used by the sources). -/
inductive Status where
  | success
  | failure
  | revert
  | out_of_gas
  | invalid_instruction
  | undefined_instruction
  | stack_overflow
  | stack_underflow
  | bad_jump_destination
  | invalid_memory_access
  deriving DecidableEq, Repr

/-! ## Prototype execution state (execution.cpp)

The execution_state of the prototype holds the gas meter, operand stack,
byte memory, the running memory-cost accumulator, the run flag, the
status and the output descriptor. The stack is embedded with the top as
the list head, so item(0) is the head and pop_back drops the head. -/

structure ProtoState where
  run : Bool := true
  status : Status := .success
  gasLeft : Int := 0
  stack : List Nat := []
  memory : List Nat := []
  memoryPrevCost : Int := 0
  outputOffset : Nat := 0
  outputSize : Nat := 0
  deriving DecidableEq, Repr

/-- The stack accessor item(i) of the prototype: i-th word from the top. -/
def protoItem (s : ProtoState) (i : Nat) : Nat :=
  s.stack.getD i 0

/-- Embedding of check_memory (execution.cpp lines 14-53). The offset and
size arguments are the 256-bit operand values. -/
def checkMemory (state : ProtoState) (offset size : Nat) : ProtoState × Bool :=
  if size = 0 then (state, true)
  else if 2 ^ 32 - 1 < offset ∨ 2 ^ 32 - 1 < size then
    ({ state with run := false, status := .out_of_gas }, false)
  else
    let o : Int := offset
    let s : Int := size
    let m : Int := state.memory.length
    let newSize := o + s
    if m < s then
      let w := (newSize + 31) / 32
      let newCost := 3 * w + w * w / 512
      let cost := newCost - state.memoryPrevCost
      let state1 := { state with memoryPrevCost := newCost, gasLeft := state.gasLeft - cost }
      if state1.gasLeft < 0 then
        ({ state1 with run := false, status := .out_of_gas }, false)
      else
        ({ state1 with
            memory :=
              state1.memory ++ List.replicate (newSize.toNat - state1.memory.length) 0 },
          true)
    else (state, true)

/-- The 32 bytes of a 256-bit word in big-endian order (intx::be::store). -/
def beBytes32 (x : Nat) : List Nat :=
  (List.range 32).map (fun k => x / 2 ^ (8 * (31 - k)) % 256)

/-- Write a list of bytes into memory starting at the given index
(positions beyond the buffer are dropped, as List.set is out of range
there). -/
def storeBytes (mem : List Nat) (index : Nat) : List Nat → List Nat
  | [] => mem
  | b :: bs => storeBytes (mem.set index b) (index + 1) bs

/-- Embedding of op_mstore (execution.cpp lines 67-79): read the two
operands, run the memory check, and only on success store the word and
pop the operands. -/
def op_mstore (s : ProtoState) : ProtoState :=
  let index := protoItem s 0
  let x := protoItem s 1
  let r := checkMemory s index 32
  if r.2 then
    let s2 := { r.1 with memory := storeBytes r.1.memory index (beBytes32 x) }
    { s2 with stack := s2.stack.drop 2 }
  else r.1

/-! ## Per-iteration pre-flight checks -/

/-- Block metadata of the prototype analysis (gas cost of the basic
block, required stack height, maximal stack growth). -/
structure BlockInfo where
  gas_cost : Int
  stack_req : Int
  stack_max : Int
  deriving DecidableEq, Repr

/-- Embedding of the per-block pre-flight check of the prototype dispatch
loop (execution.cpp lines 138-155): subtract the block gas, fail when the
result is not positive, then check stack underflow, then overflow.
Returns the status and the updated gas meter. -/
def blockCheck (block : BlockInfo) (gasLeft : Int) (stackSize : Nat) : Status × Int :=
  let g := gasLeft - block.gas_cost
  if g ≤ 0 then (.out_of_gas, g)
  else if (stackSize : Int) < block.stack_req then (.stack_underflow, g)
  else if (stackSize : Int) + block.stack_max > 1024 then (.stack_overflow, g)
  else (.success, g)

/-- Modelled from the spec: the sentinel gas cost marking an undefined
opcode in the instruction table (instr::undefined; the table header is
not among the sources). -/
def instrUndefined : Int := -1

/-- One entry of the baseline instruction table: base gas cost (or the
undefined sentinel), required stack height, and whether the opcode can
grow the stack. -/
structure InstrMetrics where
  gas_cost : Int
  stack_height_required : Nat
  can_overflow_stack : Bool
  deriving DecidableEq, Repr

/-- Modelled from the spec: the operand stack bound Stack::limit
(execution_state.hpp is not among the sources; the spec fixes it at
1024). -/
def stackLimit : Nat := 1024

/-- Embedding of check_requirements (baseline.cpp lines 50-71): undefined
check, then gas subtraction with negative test, then the stack checks.
Returns the status and the updated gas meter (the subtraction is skipped
for an undefined opcode). -/
def check_requirements (m : InstrMetrics) (gasLeft : Int) (stackSize : Nat) : Status × Int :=
  if m.gas_cost = instrUndefined then (.undefined_instruction, gasLeft)
  else
    let g := gasLeft - m.gas_cost
    if g < 0 then (.out_of_gas, g)
    else if stackSize = stackLimit then
      if m.can_overflow_stack then (.stack_overflow, g) else (.success, g)
    else if stackSize < m.stack_height_required then (.stack_underflow, g)
    else (.success, g)

/-- Model of the pre-flight outcome exactly as the specification words
it: undefined first, then out-of-gas when gas minus cost is negative,
then overflow when the stack is full and the entry may grow it, then
underflow, else success. -/
def claimPreflight (m : InstrMetrics) (gasLeft : Int) (stackSize : Nat) : Status :=
  if m.gas_cost = instrUndefined then .undefined_instruction
  else if gasLeft - m.gas_cost < 0 then .out_of_gas
  else if stackSize = 1024 ∧ m.can_overflow_stack then .stack_overflow
  else if stackSize < m.stack_height_required then .stack_underflow
  else .success

/-! ## Baseline code analysis (baseline.cpp lines 16-46)

The scan walks the code left to right; a PUSH opcode (byte value between
0x60 and 0x7f, which is what the int8 comparison of the source tests for
byte inputs) skips its immediate data, a JUMPDEST byte (0x5b) sets its
bit in the map, anything else just advances. The loop is embedded as a
recursion on the distance to the code end; each iteration advances the
index by at least one. -/

/-- Embedding of the scan loop of analyze: given the bitmap accumulator
and the current index, return the final bitmap and the final index i
(the latter determines the padded-code allocation). -/
def analyzeLoop (code : List Nat) (map : List Bool) (i : Nat) : List Bool × Nat :=
  if i < code.length then
    if 0x60 ≤ code.getD i 0 ∧ code.getD i 0 ≤ 0x7f then
      analyzeLoop code map (i + (code.getD i 0 - 0x5f) + 1)
    else if code.getD i 0 = 0x5b then
      analyzeLoop code (map.set i true) (i + 1)
    else
      analyzeLoop code map (i + 1)
  else (map, i)
termination_by code.length - i
decreasing_by all_goals omega

/-- The jump-destination bitmap produced by analyze: the scan run on a
zero-initialized bitmap of length code_size. -/
def jumpdestMap (code : List Nat) : List Bool :=
  (analyzeLoop code (List.replicate code.length false) 0).1

/-- The final scan index i of analyze (can exceed the code size because
of a trailing PUSH). -/
def codePadEnd (code : List Nat) : Nat :=
  (analyzeLoop code (List.replicate code.length false) 0).2

/-- Embedding of the padded-code construction of analyze: a buffer of
i + 1 bytes is allocated uninitialized (none), the original code is
copied to the front, and STOP (0) is written at offset code_size and at
offset i. -/
def paddedCode (code : List Nat) : List (Option Nat) :=
  let i := codePadEnd code
  let buf := code.map some ++ List.replicate (i + 1 - code.length) (none : Option Nat)
  (buf.set code.length (some 0)).set i (some 0)

/-- A query of the jump-destination bitmap: false at or beyond the code
size. -/
def jumpdestQuery (code : List Nat) (j : Nat) : Bool :=
  (jumpdestMap code).getD j false

/-- Reference model, following the specification words: the offsets that
the scan visits as instruction starts and records as jump destinations,
kept here only through the recorded ones (JUMPDEST bytes at instruction
starts). -/
def scanJumpdests (code : List Nat) (i : Nat) : List Nat :=
  if i < code.length then
    if 0x60 ≤ code.getD i 0 ∧ code.getD i 0 ≤ 0x7f then
      scanJumpdests code (i + (code.getD i 0 - 0x5f) + 1)
    else if code.getD i 0 = 0x5b then
      i :: scanJumpdests code (i + 1)
    else
      scanJumpdests code (i + 1)
  else []
termination_by code.length - i
decreasing_by all_goals omega

/-- Reference model, following the specification words: the byte offsets
that lie inside the immediate data of some PUSH1..PUSH32 instruction,
instructions being delimited left to right from the given start index. A
PUSH with opcode op carries op - 0x5f immediate bytes. -/
def pushDataOffsets (code : List Nat) (i : Nat) : List Nat :=
  if i < code.length then
    if 0x60 ≤ code.getD i 0 ∧ code.getD i 0 ≤ 0x7f then
      (List.range (code.getD i 0 - 0x5f)).map (fun k => i + 1 + k) ++
        pushDataOffsets code (i + (code.getD i 0 - 0x5f) + 1)
    else
      pushDataOffsets code (i + 1)
  else []
termination_by code.length - i
decreasing_by all_goals omega

/-! ## Result assembly -/

/-- The externally returned result structure. -/
structure EvmcResult where
  status : Status
  gasLeft : Int
  output : List Nat
  deriving DecidableEq, Repr

/-- Embedding of the prototype result assembly (execution.cpp lines
167-182): the result is zero-initialized, gas_left is copied only for
success and revert, and the output is copied out of memory when
output_size is positive. -/
def protoMakeResult (s : ProtoState) : EvmcResult :=
  { status := s.status
    gasLeft := if s.status = .success ∨ s.status = .revert then s.gasLeft else 0
    output :=
      if 0 < s.outputSize then (s.memory.drop s.outputOffset).take s.outputSize else [] }

/-! ## Baseline dispatch loop (baseline.cpp lines 120-771)

The loop state carries the mutable execution state visible to the loop.
The opcode routines live in instructions.hpp, which is not among the
sources; the loop is therefore parameterized by an arbitrary routine
function covering the opcode implementations together with any host
behaviour. A routine either continues at the next program counter,
continues at a routine-chosen program counter (jumps and pushes), or
ends the loop with a status. -/

structure LoopState where
  gasLeft : Int := 0
  stack : List Nat := []
  memory : List Nat := []
  status : Status := .success
  outputOffset : Nat := 0
  outputSize : Nat := 0
  deriving DecidableEq, Repr

inductive RoutineResult where
  | next (s : LoopState)
  | jumpTo (pc : Nat) (s : LoopState)
  | done (s : LoopState)
  deriving DecidableEq, Repr

/-- The state carried by a routine result. -/
def RoutineResult.state : RoutineResult → LoopState
  | .next s => s
  | .jumpTo _ s => s
  | .done s => s

/-- Whether a routine result continues the loop. -/
def RoutineResult.continues : RoutineResult → Bool
  | .next _ => true
  | .jumpTo _ _ => true
  | .done _ => false

inductive StepOut where
  | cont (pc : Nat) (s : LoopState)
  | exit (s : LoopState)
  deriving DecidableEq, Repr

/-- One iteration of the baseline dispatch loop (baseline.cpp lines
136-758): read the opcode from the padded code (reads beyond the list
give 0, the STOP byte), run check_requirements — on failure store the
status and the mutated gas meter and exit — then invoke the routine and
either advance or exit with the routine status. -/
def baselineStep (table : Nat → InstrMetrics) (exec : Nat → Nat → LoopState → RoutineResult)
    (code : List Nat) (pc : Nat) (s : LoopState) : StepOut :=
  let op := code.getD pc 0
  let c := check_requirements (table op) s.gasLeft s.stack.length
  if c.1 = Status.success then
    match exec op pc { s with gasLeft := c.2 } with
    | .next s2 => .cont (pc + 1) s2
    | .jumpTo pc2 s2 => .cont pc2 s2
    | .done s2 => .exit s2
  else .exit { s with status := c.1, gasLeft := c.2 }

/-- The baseline dispatch loop with an iteration budget: returns the
terminal state when the loop exits within the budget. -/
def baselineRun (table : Nat → InstrMetrics) (exec : Nat → Nat → LoopState → RoutineResult)
    (code : List Nat) : Nat → Nat → LoopState → Option LoopState
  | 0, _, _ => none
  | fuel + 1, pc, s =>
    match baselineStep table exec code pc s with
    | .exit s2 => some s2
    | .cont pc2 s2 => baselineRun table exec code fuel pc2 s2

/-- Embedding of the baseline result assembly (baseline.cpp lines
760-765): gas_left is the state gas only for success and revert, zero
otherwise; the output is the memory slice when output_size is nonzero. -/
def baselineMakeResult (s : LoopState) : EvmcResult :=
  { status := s.status
    gasLeft := if s.status = .success ∨ s.status = .revert then s.gasLeft else 0
    output :=
      if s.outputSize ≠ 0 then (s.memory.drop s.outputOffset).take s.outputSize else [] }

/-- A small concrete instruction table covering STOP, JUMP, JUMPDEST and
PUSH1 with their base costs; every other opcode is undefined. Modelled
from the spec (the per-revision table sources are not among the source
files). -/
def miniTable (op : Nat) : InstrMetrics :=
  if op = 0x00 then ⟨0, 0, false⟩
  else if op = 0x56 then ⟨8, 1, false⟩
  else if op = 0x5b then ⟨1, 0, false⟩
  else if op = 0x60 then ⟨3, 0, true⟩
  else ⟨instrUndefined, 0, false⟩

/-- Modelled from the spec: concrete routines for STOP, PUSH1, JUMP and
JUMPDEST (the opcode routine sources, instructions.hpp, are not among
the source files). STOP ends the loop with success; PUSH1 pushes its
immediate and continues after it; JUMP pops the target and continues
there when the jump-destination bitmap allows it, failing with
bad-jump-destination otherwise; JUMPDEST is a no-op; anything else ends
the loop. -/
def miniExec (jd : Nat → Bool) (code : List Nat) (op pc : Nat) (s : LoopState) :
    RoutineResult :=
  if op = 0x5b then .next s
  else if op = 0x60 then
    .jumpTo (pc + 2) { s with stack := code.getD (pc + 1) 0 :: s.stack }
  else if op = 0x56 then
    match s.stack with
    | [] => .done { s with status := .stack_underflow }
    | t :: rest =>
      if jd t then .jumpTo t { s with stack := rest }
      else .done { s with status := .bad_jump_destination, stack := rest }
  else .done { s with status := if op = 0 then .success else .undefined_instruction }

/-- The backward-jumping loop program JUMPDEST; PUSH1 0; JUMP. -/
def loopCode : List Nat := [0x5b, 0x60, 0x00, 0x56]

/-! ## Theorems about the code analysis -/

/-- Every offset inside PUSH immediate data lies strictly beyond the
scan index it was produced from. -/
theorem pushDataOffsets_lt (code : List Nat) (i : Nat) :
    ∀ j ∈ pushDataOffsets code i, i < j := by
  induction i using pushDataOffsets.induct code with
  | case1 x hx hpush ih =>
    intro j hj
    rw [pushDataOffsets, if_pos hx, if_pos hpush] at hj
    rcases List.mem_append.1 hj with hj | hj
    · rcases List.mem_map.1 hj with ⟨k, _, rfl⟩
      omega
    · have := ih j hj
      omega
  | case2 x hx hnp ih =>
    intro j hj
    rw [pushDataOffsets, if_pos hx, if_neg hnp] at hj
    have := ih j hj
    omega
  | case3 x hnlt =>
    intro j hj
    rw [pushDataOffsets, if_neg hnlt] at hj
    simp at hj

/-- The offsets recorded by the scan are exactly the JUMPDEST bytes at
or beyond the start index that lie outside all PUSH immediate data. -/
theorem mem_scanJumpdests (code : List Nat) (i : Nat) :
    ∀ j, j ∈ scanJumpdests code i ↔
      (i ≤ j ∧ j < code.length ∧ code.getD j 0 = 0x5b ∧ j ∉ pushDataOffsets code i) := by
  induction i using scanJumpdests.induct code with
  | case1 x hx hpush ih =>
    intro j
    rw [scanJumpdests, if_pos hx, if_pos hpush,
      pushDataOffsets, if_pos hx, if_pos hpush]
    rw [ih j]
    constructor
    · rintro ⟨h1, h2, h3, h4⟩
      refine ⟨by omega, h2, h3, ?_⟩
      intro hmem
      rcases List.mem_append.1 hmem with hm | hm
      · rcases List.mem_map.1 hm with ⟨k, hk, rfl⟩
        rw [List.mem_range] at hk
        omega
      · exact h4 hm
    · rintro ⟨h1, h2, h3, h4⟩
      have hxj : j ≠ x := by
        intro e
        rw [e] at h3
        omega
      have hblock : ∀ k ∈ List.range (code.getD x 0 - 0x5f), ¬(x + 1 + k = j) := by
        intro k hk he
        exact h4 (List.mem_append.2 (Or.inl (List.mem_map.2 ⟨k, hk, he⟩)))
      have hge : x + (code.getD x 0 - 0x5f) + 1 ≤ j := by
        by_contra hcon
        have hk := hblock (j - (x + 1)) (List.mem_range.2 (by omega))
        omega
      refine ⟨hge, h2, h3, fun hm => h4 (List.mem_append.2 (Or.inr hm))⟩
  | case2 x hx hnp heq ih =>
    intro j
    rw [scanJumpdests, if_pos hx, if_neg hnp, if_pos heq,
      pushDataOffsets, if_pos hx, if_neg hnp]
    rw [List.mem_cons, ih j]
    by_cases hxj : j = x
    · subst hxj
      simp only [true_or, true_iff]
      refine ⟨le_refl _, hx, heq, ?_⟩
      intro hmem
      have := pushDataOffsets_lt code (j + 1) j hmem
      omega
    · simp only [hxj, false_or]
      constructor
      · rintro ⟨h1, h2, h3, h4⟩
        exact ⟨by omega, h2, h3, h4⟩
      · rintro ⟨h1, h2, h3, h4⟩
        exact ⟨by omega, h2, h3, h4⟩
  | case3 x hx hnp hne ih =>
    intro j
    rw [scanJumpdests, if_pos hx, if_neg hnp, if_neg hne,
      pushDataOffsets, if_pos hx, if_neg hnp]
    rw [ih j]
    constructor
    · rintro ⟨h1, h2, h3, h4⟩
      exact ⟨by omega, h2, h3, h4⟩
    · rintro ⟨h1, h2, h3, h4⟩
      have hxj : j ≠ x := by
        intro e
        rw [e] at h3
        exact hne h3
      exact ⟨by omega, h2, h3, h4⟩
  | case4 x hnlt =>
    intro j
    rw [scanJumpdests, if_neg hnlt]
    simp only [List.not_mem_nil, false_iff]
    rintro ⟨h1, h2, _, _⟩
    omega

/-- The scan never changes the bitmap length. -/
theorem analyzeLoop_fst_length (code : List Nat) (map : List Bool) (i : Nat) :
    (analyzeLoop code map i).1.length = map.length := by
  induction map, i using analyzeLoop.induct code with
  | case1 map x hx hpush ih =>
    rw [analyzeLoop, if_pos hx, if_pos hpush]
    exact ih
  | case2 map x hx hnp heq ih =>
    rw [analyzeLoop, if_pos hx, if_neg hnp, if_pos heq]
    rw [ih, List.length_set]
  | case3 map x hx hnp hne ih =>
    rw [analyzeLoop, if_pos hx, if_neg hnp, if_neg hne]
    exact ih
  | case4 map x hnlt =>
    rw [analyzeLoop, if_neg hnlt]

/-- The bitmap after the scan: a bit is set exactly when the scan
recorded its offset; all other bits keep their initial value. -/
theorem analyzeLoop_fst_get (code : List Nat) (map : List Bool) (i : Nat)
    (hlen : map.length = code.length) (j : Nat) :
    (analyzeLoop code map i).1[j]? =
      if j ∈ scanJumpdests code i then some true else map[j]? := by
  induction map, i using analyzeLoop.induct code with
  | case1 map x hx hpush ih =>
    rw [analyzeLoop, if_pos hx, if_pos hpush, scanJumpdests, if_pos hx, if_pos hpush]
    exact ih hlen
  | case2 map x hx hnp heq ih =>
    rw [analyzeLoop, if_pos hx, if_neg hnp, if_pos heq,
      scanJumpdests, if_pos hx, if_neg hnp, if_pos heq]
    rw [ih (by rw [List.length_set]; exact hlen)]
    by_cases hmem : j ∈ scanJumpdests code (x + 1)
    · rw [if_pos hmem, if_pos (List.mem_cons.2 (Or.inr hmem))]
    · rw [if_neg hmem]
      by_cases hxj : j = x
      · subst hxj
        rw [if_pos (List.mem_cons.2 (Or.inl rfl))]
        exact List.getElem?_set_eq_of_lt true (by omega)
      · rw [if_neg (by simp [List.mem_cons, hxj, hmem])]
        exact List.getElem?_set_ne (fun e => hxj e.symm)
  | case3 map x hx hnp hne ih =>
    rw [analyzeLoop, if_pos hx, if_neg hnp, if_neg hne,
      scanJumpdests, if_pos hx, if_neg hnp, if_neg hne]
    exact ih hlen
  | case4 map x hnlt =>
    rw [analyzeLoop, if_neg hnlt, scanJumpdests, if_neg hnlt]
    simp

/-- Bounds on the final scan index: it never goes backwards, reaches at
least the code end, stays put beyond it, and exceeds the code length by
at most 32 (a PUSH advances by at most 33 from inside the code). -/
theorem analyzeLoop_snd_bounds (code : List Nat) (map : List Bool) (i : Nat) :
    i ≤ (analyzeLoop code map i).2 ∧
    (i < code.length → code.length ≤ (analyzeLoop code map i).2) ∧
    (code.length ≤ i → (analyzeLoop code map i).2 = i) ∧
    (i ≤ code.length + 32 → (analyzeLoop code map i).2 ≤ code.length + 32) := by
  induction map, i using analyzeLoop.induct code with
  | case1 map x hx hpush ih =>
    rw [analyzeLoop, if_pos hx, if_pos hpush]
    rcases ih with ⟨i1, i2, i3, i4⟩
    refine ⟨by omega, fun _ => ?_, fun h => by omega, fun _ => ?_⟩
    · by_cases hlt : x + (code.getD x 0 - 0x5f) + 1 < code.length
      · exact i2 hlt
      · have := i3 (by omega)
        omega
    · exact i4 (by omega)
  | case2 map x hx hnp heq ih =>
    rw [analyzeLoop, if_pos hx, if_neg hnp, if_pos heq]
    rcases ih with ⟨i1, i2, i3, i4⟩
    refine ⟨by omega, fun _ => ?_, fun h => by omega, fun _ => i4 (by omega)⟩
    by_cases hlt : x + 1 < code.length
    · exact i2 hlt
    · have := i3 (by omega)
      omega
  | case3 map x hx hnp hne ih =>
    rw [analyzeLoop, if_pos hx, if_neg hnp, if_neg hne]
    rcases ih with ⟨i1, i2, i3, i4⟩
    refine ⟨by omega, fun _ => ?_, fun h => by omega, fun _ => i4 (by omega)⟩
    by_cases hlt : x + 1 < code.length
    · exact i2 hlt
    · have := i3 (by omega)
      omega
  | case4 map x hnlt =>
    rw [analyzeLoop, if_neg hnlt]
    exact ⟨le_refl _, fun h => by omega, fun _ => rfl, fun h => h⟩

/-- Claim C3: the analysis bitmap has exactly the code length, and a
query is true exactly at offsets inside the code that hold a JUMPDEST
byte lying outside every PUSH immediate-data region; queries at or
beyond the code size are false. -/
theorem jumpdest_bitmap_exact (code : List Nat) (j : Nat) :
    (jumpdestMap code).length = code.length ∧
    (jumpdestQuery code j = true ↔
      j < code.length ∧ code.getD j 0 = 0x5b ∧ j ∉ pushDataOffsets code 0) := by
  have hlen : (jumpdestMap code).length = code.length := by
    rw [jumpdestMap, analyzeLoop_fst_length, List.length_replicate]
  refine ⟨hlen, ?_⟩
  have hget := analyzeLoop_fst_get code (List.replicate code.length false) 0
      (by rw [List.length_replicate]) j
  rw [jumpdestQuery, List.getD_eq_getElem?_getD, jumpdestMap, hget]
  by_cases hmem : j ∈ scanJumpdests code 0
  · rw [if_pos hmem]
    have hm := (mem_scanJumpdests code 0 j).1 hmem
    simp only [Option.getD_some, true_iff]
    exact ⟨hm.2.1, hm.2.2.1, hm.2.2.2⟩
  · rw [if_neg hmem]
    constructor
    · intro hq
      exfalso
      rw [List.getElem?_replicate] at hq
      by_cases hj : j < code.length
      · rw [if_pos hj] at hq
        simp at hq
      · rw [if_neg hj] at hq
        simp at hq
    · rintro ⟨h1, h2, h3⟩
      exact absurd ((mem_scanJumpdests code 0 j).2 ⟨Nat.zero_le j, h1, h2, h3⟩) hmem

/-- Example: in PUSH1 0x5b; JUMPDEST the byte 0x5b at offset 1 is PUSH
data and not a destination, while the JUMPDEST at offset 2 is one, and
offsets beyond the code are not. -/
theorem jumpdestQuery_example :
    jumpdestQuery [0x60, 0x5b, 0x5b] 1 = false ∧
    jumpdestQuery [0x60, 0x5b, 0x5b] 2 = true ∧
    jumpdestQuery [0x60, 0x5b, 0x5b] 3 = false := by
  refine ⟨?_, ?_, ?_⟩ <;>
    simp [jumpdestQuery, jumpdestMap, analyzeLoop, List.getD]

/-- Claim C4 (amended): the padded buffer has length
max(code_size, i) + 1 with code_size ≤ i ≤ code_size + 32, holds the
original bytes below code_size and the STOP byte at offsets code_size
and i, while offsets strictly between the two are left uninitialized
(and offsets beyond i do not exist). -/
theorem padded_code_layout (code : List Nat) :
    (paddedCode code).length = max code.length (codePadEnd code) + 1 ∧
    code.length ≤ codePadEnd code ∧
    codePadEnd code ≤ code.length + 32 ∧
    (∀ j, j < code.length → (paddedCode code)[j]? = some (some (code.getD j 0))) ∧
    (paddedCode code)[code.length]? = some (some 0) ∧
    (paddedCode code)[codePadEnd code]? = some (some 0) ∧
    (∀ j, code.length < j → j < codePadEnd code → (paddedCode code)[j]? = some none) := by
  rcases analyzeLoop_snd_bounds code (List.replicate code.length false) 0 with ⟨b1, b2, b3, b4⟩
  have hge : code.length ≤ codePadEnd code := by
    by_cases h0 : 0 < code.length
    · exact b2 h0
    · rw [codePadEnd, b3 (by omega)]
      omega
  have hle : codePadEnd code ≤ code.length + 32 := b4 (by omega)
  have hbuf :
      (code.map some ++
        List.replicate (codePadEnd code + 1 - code.length) (none : Option Nat)).length =
        codePadEnd code + 1 := by
    rw [List.length_append, List.length_map, List.length_replicate]
    omega
  refine ⟨?_, hge, hle, ?_, ?_, ?_, ?_⟩
  · rw [paddedCode]
    rw [List.length_set, List.length_set, hbuf]
    omega
  · intro j hj
    rw [paddedCode]
    rw [List.getElem?_set_ne (by omega), List.getElem?_set_ne (by omega),
      List.getElem?_append_left (by rw [List.length_map]; exact hj),
      List.getElem?_map, List.getElem?_eq_getElem hj]
    rw [List.getD_eq_getElem?_getD, List.getElem?_eq_getElem hj]
    rfl
  · rw [paddedCode]
    by_cases hei : codePadEnd code = code.length
    · rw [hei]
      rw [List.getElem?_set_self (by
        simp only [List.length_set, List.length_append, List.length_map,
          List.length_replicate]
        omega)]
    · rw [List.getElem?_set_ne (fun e => hei e),
        List.getElem?_set_self (by rw [hbuf]; omega)]
  · rw [paddedCode]
    rw [List.getElem?_set_self (by rw [List.length_set, hbuf]; omega)]
  · intro j h1 h2
    rw [paddedCode]
    rw [List.getElem?_set_ne (by omega), List.getElem?_set_ne (by omega),
      List.getElem?_append_right (by rw [List.length_map]; omega),
      List.getElem?_replicate, List.length_map]
    rw [if_pos (by omega)]

/-- Witness for C4: for the code PUSH3; JUMPDEST the padded buffer keeps
the original byte at offset 1 and has the STOP byte at the code size. -/
theorem padded_code_layout_witness :
    (paddedCode [0x62, 0x5b])[1]? = some (some 0x5b) ∧
    (paddedCode [0x62, 0x5b])[2]? = some (some 0) := by
  constructor
  · have h := (padded_code_layout [0x62, 0x5b]).2.2.2.1 1 (by norm_num)
    simpa using h
  · have h := (padded_code_layout [0x62, 0x5b]).2.2.2.2.1
    simpa using h

/-- Counterexample to claim C4 as stated: for the single-byte code PUSH3
the padded buffer holds an uninitialized byte (not a STOP) at offset 2,
and for the empty code the read at offset 1 = code_size + 1 is out of
bounds, so the padding is neither all-STOP nor 33 bytes wide. -/
theorem padded_code_not_all_stop :
    (paddedCode [0x62])[2]? = some none ∧ (paddedCode ([] : List Nat))[1]? = none := by
  constructor
  · simp [paddedCode, codePadEnd, analyzeLoop]
  · simp [paddedCode, codePadEnd, analyzeLoop]

/-! ## Theorems about the prototype memory check -/

/-- The memory check never touches the operand stack. -/
theorem checkMemory_stack_eq (s : ProtoState) (o n : Nat) :
    (checkMemory s o n).1.stack = s.stack := by
  simp only [checkMemory]
  split_ifs <;> rfl

/-- Claim C7: a memory access check with size zero succeeds and leaves
the whole state unchanged, regardless of the offset. -/
theorem checkMemory_zero_size (s : ProtoState) (offset : Nat) :
    checkMemory s offset 0 = (s, true) := rfl

/-- Claim C9: a nonzero-size access whose offset or size exceeds
2^32 - 1 fails with out-of-gas, clears the run flag and changes nothing
else: no gas is charged and the memory is not grown. -/
theorem checkMemory_huge_operand (s : ProtoState) (offset size : Nat) (h0 : size ≠ 0)
    (h : 2 ^ 32 - 1 < offset ∨ 2 ^ 32 - 1 < size) :
    checkMemory s offset size = ({ s with run := false, status := .out_of_gas }, false) := by
  unfold checkMemory
  rw [if_neg h0, if_pos h]

/-- Witness for C9 at a concrete state and operands. -/
theorem checkMemory_huge_operand_witness :
    checkMemory { gasLeft := 50 } (2 ^ 32) 1 =
      ({ gasLeft := 50, run := false, status := .out_of_gas }, false) :=
  checkMemory_huge_operand { gasLeft := 50 } (2 ^ 32) 1 (by decide)
    (Or.inl (by norm_num))

/-- Claim C10: the prototype MSTORE is atomic on the stack: when the
memory check fails the routine returns the check's state with the two
operands still on the stack, and only on success are the two operands
popped (after the store). -/
theorem op_mstore_stack_atomic (s : ProtoState) :
    ((checkMemory s (protoItem s 0) 32).2 = false →
        op_mstore s = (checkMemory s (protoItem s 0) 32).1 ∧
        (op_mstore s).stack = s.stack) ∧
    ((checkMemory s (protoItem s 0) 32).2 = true →
        (op_mstore s).stack = s.stack.drop 2) := by
  constructor
  · intro h
    refine ⟨by simp [op_mstore, h], ?_⟩
    simp [op_mstore, h, checkMemory_stack_eq]
  · intro h
    simp [op_mstore, h, checkMemory_stack_eq]

/-- Witness for C10: a failed MSTORE (offset beyond 2^32) keeps the two
operands; a successful MSTORE pops them. -/
theorem op_mstore_stack_atomic_witness :
    (op_mstore { stack := [2 ^ 33, 7] }).stack = [2 ^ 33, 7] ∧
    (op_mstore { stack := [0, 5], memory := List.replicate 32 0, gasLeft := 10 }).stack =
      ([0, 5] : List Nat).drop 2 :=
  ⟨((op_mstore_stack_atomic { stack := [2 ^ 33, 7] }).1 (by decide)).2,
    (op_mstore_stack_atomic
      { stack := [0, 5], memory := List.replicate 32 0, gasLeft := 10 }).2 (by decide)⟩

/-- Claim C5 evaluated at its failing inputs: with 32 bytes of memory a
check for offset 32, size 32 succeeds without growing the memory, so the
accessed range [32, 64) is not covered; and from empty memory a check
for offset 1, size 32 grows the memory to 33 bytes, which is not a
multiple of 32. -/
theorem checkMemory_uncovered_access_eval :
    checkMemory { gasLeft := 1000, memory := List.replicate 32 0, memoryPrevCost := 3 } 32 32 =
      ({ gasLeft := 1000, memory := List.replicate 32 0, memoryPrevCost := 3 }, true) ∧
    (32 : Nat) + 32 >
      (checkMemory { gasLeft := 1000, memory := List.replicate 32 0, memoryPrevCost := 3 }
        32 32).1.memory.length ∧
    (checkMemory { gasLeft := 1000 } 1 32).1.memory.length = 33 ∧
    (33 : Nat) % 32 ≠ 0 := by decide

/-! ## Theorems about the pre-flight checks -/

/-- Claim C1 (amended): the baseline check_requirements realizes exactly
the claimed cascade undefined, gas, overflow, underflow (for any table
entry whose required stack height is within the stack limit), and its
success outcome matches the reference model; the prototype per-block
check instead has no undefined case, fails on gas when the subtraction
leaves zero or less, and checks underflow before overflow with its own
conditions, its success outcome being characterized here. -/
theorem preflight_check_order (m : InstrMetrics) (b : BlockInfo) (g : Int) (n : Nat)
    (hreq : m.stack_height_required ≤ stackLimit) :
    (check_requirements m g n).1 = claimPreflight m g n ∧
    ((check_requirements m g n).1 = Status.success ↔
      m.gas_cost ≠ instrUndefined ∧ m.gas_cost ≤ g ∧
        ¬(n = stackLimit ∧ m.can_overflow_stack = true) ∧ m.stack_height_required ≤ n) ∧
    ((blockCheck b g n).1 = Status.success ↔
      0 < g - b.gas_cost ∧ b.stack_req ≤ (n : Int) ∧ (n : Int) + b.stack_max ≤ 1024) := by
  simp only [check_requirements, claimPreflight, blockCheck, stackLimit] at *
  refine ⟨?_, ?_, ?_⟩ <;> split_ifs <;> simp_all
  all_goals omega

/-- Witness for C1 at a concrete table entry, block and state. -/
theorem preflight_check_order_witness :
    (check_requirements ⟨3, 2, true⟩ 10 5).1 = claimPreflight ⟨3, 2, true⟩ 10 5 ∧
    ((blockCheck ⟨2, 1, 3⟩ 10 5).1 = Status.success ↔
      0 < (10 : Int) - 2 ∧ (1 : Int) ≤ (5 : Nat) ∧ ((5 : Nat) : Int) + 3 ≤ 1024) :=
  ⟨(preflight_check_order ⟨3, 2, true⟩ ⟨2, 1, 3⟩ 10 5 (by decide)).1,
    (preflight_check_order ⟨3, 2, true⟩ ⟨2, 1, 3⟩ 10 5 (by decide)).2.2⟩

/-- Counterexample to claim C1 as stated: the prototype per-block check
reports a stack overflow although the stack length is 1020, not 1024, so
its checks are not the claimed ones in the claimed order. -/
theorem blockCheck_overflow_below_limit :
    (blockCheck ⟨1, 0, 10⟩ 100 1020).1 = Status.stack_overflow ∧ (1020 : Nat) ≠ 1024 := by
  decide

/-- Claim C2 (amended): both charges subtract the cost first and expose
the subtracted meter; the baseline pre-flight charge fails with
out-of-gas exactly when the result is negative (zero passes), while the
prototype per-block charge fails exactly when the result is zero or
negative. -/
theorem gas_subtract_then_test (m : InstrMetrics) (b : BlockInfo) (g : Int) (n : Nat)
    (h : m.gas_cost ≠ instrUndefined) :
    (check_requirements m g n).2 = g - m.gas_cost ∧
    ((check_requirements m g n).1 = Status.out_of_gas ↔ g - m.gas_cost < 0) ∧
    (blockCheck b g n).2 = g - b.gas_cost ∧
    ((blockCheck b g n).1 = Status.out_of_gas ↔ g - b.gas_cost ≤ 0) := by
  simp only [check_requirements, blockCheck]
  rw [if_neg h]
  refine ⟨?_, ?_, ?_, ?_⟩ <;> split_ifs <;> simp_all

/-- Witness for C2 at a concrete deduction that leaves exactly zero gas:
the baseline charge does not fail there. -/
theorem gas_subtract_then_test_witness :
    (check_requirements ⟨5, 0, false⟩ 5 0).2 = (5 : Int) - 5 ∧
    ((check_requirements ⟨5, 0, false⟩ 5 0).1 = Status.out_of_gas ↔ (5 : Int) - 5 < 0) :=
  ⟨(gas_subtract_then_test ⟨5, 0, false⟩ ⟨1, 0, 0⟩ 5 0 (by decide)).1,
    (gas_subtract_then_test ⟨5, 0, false⟩ ⟨1, 0, 0⟩ 5 0 (by decide)).2.1⟩

/-- Counterexample to claim C2 as stated: the prototype per-block charge
fails with out-of-gas on a deduction that leaves the meter at exactly
zero. -/
theorem blockCheck_fails_at_zero :
    (blockCheck ⟨5, 0, 0⟩ 5 0).1 = Status.out_of_gas ∧ (5 : Int) - 5 = 0 := by decide

/-! ## Theorems about result assembly -/

/-- Claim C6: in both result assemblies the returned gas_left equals the
state's remaining gas for success and revert and is zero for every other
status. -/
theorem result_gas_left (s : LoopState) (p : ProtoState) :
    ((s.status = .success ∨ s.status = .revert) →
        (baselineMakeResult s).gasLeft = s.gasLeft) ∧
    (¬(s.status = .success ∨ s.status = .revert) → (baselineMakeResult s).gasLeft = 0) ∧
    ((p.status = .success ∨ p.status = .revert) →
        (protoMakeResult p).gasLeft = p.gasLeft) ∧
    (¬(p.status = .success ∨ p.status = .revert) → (protoMakeResult p).gasLeft = 0) := by
  refine ⟨fun h => ?_, fun h => ?_, fun h => ?_, fun h => ?_⟩ <;>
    simp [baselineMakeResult, protoMakeResult, h]

/-- Witness for C6: a revert keeps its gas in the baseline assembly and
an out-of-gas is zeroed in the prototype assembly. -/
theorem result_gas_left_witness :
    (baselineMakeResult { gasLeft := 7, status := .revert }).gasLeft = 7 ∧
    (protoMakeResult { gasLeft := 7, status := .out_of_gas }).gasLeft = 0 :=
  ⟨(result_gas_left { gasLeft := 7, status := .revert } {}).1 (Or.inr rfl),
    (result_gas_left { gasLeft := 7, status := .revert }
      { gasLeft := 7, status := .out_of_gas }).2.2.2 (by decide)⟩

/-! ## Termination of the baseline dispatch loop -/

/-- A successful pre-flight check subtracted the base cost and left a
non-negative meter. -/
theorem check_requirements_success (m : InstrMetrics) (g : Int) (n : Nat)
    (h : (check_requirements m g n).1 = Status.success) :
    (check_requirements m g n).2 = g - m.gas_cost ∧ 0 ≤ g - m.gas_cost := by
  simp only [check_requirements] at h ⊢
  split_ifs at h ⊢ <;> simp_all

/-- A continuing loop iteration strictly decreases the gas meter, for
any routine set in which a continuing opcode has base cost at least one
and never increases the meter. -/
theorem baselineStep_cont_gas (table : Nat → InstrMetrics)
    (exec : Nat → Nat → LoopState → RoutineResult) (code : List Nat)
    (Hcont : ∀ op pc s, (exec op pc s).continues = true → 1 ≤ (table op).gas_cost)
    (Hmono : ∀ op pc s, (exec op pc s).state.gasLeft ≤ s.gasLeft)
    (pc : Nat) (s : LoopState) (pc2 : Nat) (s2 : LoopState)
    (h : baselineStep table exec code pc s = .cont pc2 s2) :
    s2.gasLeft.toNat < s.gasLeft.toNat := by
  simp only [baselineStep] at h
  by_cases hsucc :
      (check_requirements (table (code.getD pc 0)) s.gasLeft s.stack.length).1 =
        Status.success
  · rw [if_pos hsucc] at h
    rcases check_requirements_success _ _ _ hsucc with ⟨hval, hpos⟩
    set c2 := (check_requirements (table (code.getD pc 0)) s.gasLeft s.stack.length).2
      with hc2
    cases hexec : exec (code.getD pc 0) pc { s with gasLeft := c2 } with
    | next s3 =>
      rw [hexec] at h
      cases h
      have h1 := Hcont (code.getD pc 0) pc { s with gasLeft := c2 }
        (by rw [hexec]; rfl)
      have h2 := Hmono (code.getD pc 0) pc { s with gasLeft := c2 }
      rw [hexec] at h2
      simp only [RoutineResult.state] at h2
      omega
    | jumpTo pc3 s3 =>
      rw [hexec] at h
      cases h
      have h1 := Hcont (code.getD pc 0) pc { s with gasLeft := c2 }
        (by rw [hexec]; rfl)
      have h2 := Hmono (code.getD pc 0) pc { s with gasLeft := c2 }
      rw [hexec] at h2
      simp only [RoutineResult.state] at h2
      omega
    | done s3 =>
      rw [hexec] at h
      cases h
  · rw [if_neg hsucc] at h
    cases h

/-- An iteration budget above the gas meter always suffices for the loop
to exit. -/
theorem baselineRun_total_aux (table : Nat → InstrMetrics)
    (exec : Nat → Nat → LoopState → RoutineResult) (code : List Nat)
    (Hcont : ∀ op pc s, (exec op pc s).continues = true → 1 ≤ (table op).gas_cost)
    (Hmono : ∀ op pc s, (exec op pc s).state.gasLeft ≤ s.gasLeft) :
    ∀ (n : Nat) (pc : Nat) (s : LoopState), s.gasLeft.toNat < n →
      ∃ r, baselineRun table exec code n pc s = some r := by
  intro n
  induction n with
  | zero =>
    intro pc s h
    omega
  | succ n ih =>
    intro pc s h
    rw [baselineRun]
    cases hstep : baselineStep table exec code pc s with
    | exit s2 => exact ⟨s2, rfl⟩
    | cont pc2 s2 =>
      have := baselineStep_cont_gas table exec code Hcont Hmono pc s pc2 s2 hstep
      exact ih pc2 s2 (by omega)

/-- Claim C8: for every code, start point and state, the baseline
dispatch loop exits within gas_left + 1 iterations, for any instruction
table and routine set in which every routine that continues the loop has
base cost at least one gas and no routine increases the gas meter. -/
theorem baseline_loop_terminates (table : Nat → InstrMetrics)
    (exec : Nat → Nat → LoopState → RoutineResult) (code : List Nat)
    (Hcont : ∀ op pc s, (exec op pc s).continues = true → 1 ≤ (table op).gas_cost)
    (Hmono : ∀ op pc s, (exec op pc s).state.gasLeft ≤ s.gasLeft)
    (pc : Nat) (s : LoopState) :
    ∃ r, baselineRun table exec code (s.gasLeft.toNat + 1) pc s = some r :=
  baselineRun_total_aux table exec code Hcont Hmono (s.gasLeft.toNat + 1) pc s
    (by omega)

/-- Every continuing routine of the concrete mini interpreter belongs to
an opcode with base cost at least one. -/
theorem miniExec_cost (jd : Nat → Bool) (code : List Nat) (op pc : Nat) (s : LoopState)
    (h : (miniExec jd code op pc s).continues = true) : 1 ≤ (miniTable op).gas_cost := by
  by_cases h1 : op = 0x5b
  · subst h1
    decide
  · by_cases h2 : op = 0x60
    · subst h2
      decide
    · by_cases h3 : op = 0x56
      · subst h3
        decide
      · exfalso
        rw [miniExec, if_neg h1, if_neg h2, if_neg h3] at h
        simp [RoutineResult.continues] at h

/-- No routine of the concrete mini interpreter increases the gas
meter. -/
theorem miniExec_gas (jd : Nat → Bool) (code : List Nat) (op pc : Nat) (s : LoopState) :
    (miniExec jd code op pc s).state.gasLeft ≤ s.gasLeft := by
  rw [miniExec]
  split_ifs with h1 h2 h3 h4 <;> try simp [RoutineResult.state]
  cases hstack : s.stack with
  | nil => simp [RoutineResult.state]
  | cons t rest =>
    by_cases hq : jd t
    · simp [hq, RoutineResult.state]
    · simp [hq, RoutineResult.state]

/-- Witness for C8: the loop over the backward-jumping program
JUMPDEST; PUSH1 0; JUMP with 30 gas and the real jump-destination bitmap
exits within 31 iterations. -/
theorem baseline_loop_terminates_witness :
    ∃ r, baselineRun miniTable (miniExec (jumpdestQuery loopCode) loopCode) loopCode
      ((30 : Int).toNat + 1) 0 { gasLeft := 30 } = some r :=
  baseline_loop_terminates miniTable (miniExec (jumpdestQuery loopCode) loopCode) loopCode
    (fun op pc s h => miniExec_cost (jumpdestQuery loopCode) loopCode op pc s h)
    (fun op pc s => miniExec_gas (jumpdestQuery loopCode) loopCode op pc s) 0
    { gasLeft := 30 }

/-- The analysis of the loop program marks offset 0 (the JUMPDEST) as
the only destination. -/
theorem jumpdestMap_loopCode : jumpdestMap loopCode = [true, false, false, false] := by
  simp [jumpdestMap, loopCode, analyzeLoop]

/-- The bitmap query for the loop program holds exactly at offset 0. -/
theorem jumpdestQuery_loopCode (t : Nat) : jumpdestQuery loopCode t = decide (t = 0) := by
  rw [jumpdestQuery, jumpdestMap_loopCode]
  match t with
  | 0 => rfl
  | 1 => rfl
  | 2 => rfl
  | 3 => rfl
  | n + 4 => simp [List.getD]

/-- The backward-jumping program with 30 gas ends with the out-of-gas
status and a negative meter, which the result assembly zeroes. -/
theorem loop_program_out_of_gas :
    (baselineRun miniTable (miniExec (jumpdestQuery loopCode) loopCode) loopCode 31 0
        { gasLeft := 30 }).map
        (fun s => (s.status, s.gasLeft, (baselineMakeResult s).gasLeft)) =
      some (Status.out_of_gas, -6, 0) := by
  have hjd : jumpdestQuery loopCode = fun t => decide (t = 0) :=
    funext fun t => jumpdestQuery_loopCode t
  rw [hjd]
  decide

end Evmone
